import Mathlib

/-!
# Verification of the pg-example client glue code

Shallow embedding of the two designed components of `src/src/index.js`:

* the payload codec inlined in `Client.encrypt` (lines 72-84) and
  `Client.decrypt` (lines 103-105): the JSON-serialized plaintext bytes are
  length-prefixed with a big-endian u16 and zero-padded to a 512-byte
  granularity before being handed to the external encryption primitive;
* the token cache in `Client.requestToken` (lines 164-192): a session token
  memoized per attribute in a pluggable key-value store, honoring a
  server-supplied expiry window.

Bytes are `Nat` values below 256.  JavaScript bitwise operators applied to
these small non-negative numbers are translated to exact arithmetic:
`x >> k` is `x / 2 ^ k`, `x << k` is `x * 2 ^ k`, `x & 255` is `x % 256`,
and `(hi << 8) | lo` with `lo < 256` is `hi * 256 + lo`; a store into a
`Uint8Array` element keeps the value modulo 256.  Fallible operations
return `Except`/`Option`.
-/

namespace Client

/-- Error raised by the encoding half of `Client.encrypt`
(line 76: `throw new Error('Too large to encrypt')`); the spec names this
error `PayloadTooLarge`. -/
inductive EncryptError where
  | PayloadTooLarge
  deriving DecidableEq, Repr

/-- `const paddingBits = 9` (line 78): pad to blocks of `2 ^ 9 = 512` bytes. -/
def paddingBits : Nat := 9

/-- The padded buffer length computed at line 79:
`paddedLength = (((l + 1) >> paddingBits) + 1) << paddingBits`. -/
def paddedLength (l : Nat) : Nat :=
  ((l + 1) / 2 ^ paddingBits + 1) * 2 ^ paddingBits

/-- The payload-encoding half of `Client.encrypt` (lines 72-84), acting on
`objectBytes`, the UTF-8 bytes of `JSON.stringify(plaintextObject)`:
rejects `l >= 65536 - 2`, allocates a zero-initialized buffer of
`paddedLength l` bytes, stores `l >> 8` and `l & 255` at indices 0 and 1
(a `Uint8Array` store keeps the value modulo 256) and copies the payload at
offset 2, leaving the rest as zero padding.  The external WASM call that
encrypts the padded buffer is out of scope. -/
def encodePayload (objectBytes : List Nat) : Except EncryptError (List Nat) :=
  let l := objectBytes.length
  if 65536 - 2 ≤ l then
    .error .PayloadTooLarge
  else
    .ok (l / 256 % 256 :: l % 256 ::
      (objectBytes ++ List.replicate (paddedLength l - (l + 2)) 0))

/-- The length prefix read by `Client.decrypt` (line 103):
`len = (buf[0] << 8) | buf[1]`.  An out-of-range `Uint8Array` read gives
`undefined`, which the bitwise operators coerce to 0, hence `getD _ _ 0`;
`Uint8Array` elements are below 256 (the explicit `% 256`), which makes the
bitwise or an addition of disjoint parts. -/
def readLen (buf : List Nat) : Nat :=
  (buf.getD 0 0 % 256) * 256 + buf.getD 1 0 % 256

/-- The byte slice extracted by `Client.decrypt` (line 105):
`buf.slice(2, 2 + len)`.  A `Uint8Array.slice` clamps its end index to the
buffer length; it never fails. -/
def slicePayload (buf : List Nat) : List Nat :=
  (buf.drop 2).take (readLen buf)

/-- The plaintext-decoding half of `Client.decrypt` (lines 103-105), acting
on `buf`, the padded buffer returned by the external WASM decryption: reads
the big-endian u16 length prefix, slices bytes `[2, 2 + len)` and applies
`parse`, the composition of `TextDecoder.decode` and `JSON.parse`
(`none` models a thrown `SyntaxError`). -/
def decodePayload {α : Type} (parse : List Nat → Option α) (buf : List Nat) :
    Option α :=
  parse (slicePayload buf)

/-- `JSON.parse` (composed with UTF-8 decoding) restricted to the
non-negative integer numerals used as concrete inputs below: a nonempty
string of decimal digits parses to the number it denotes, e.g.
`JSON.parse("1") = 1`; on anything else `none` models a thrown
`SyntaxError`. -/
def parseDigits (bytes : List Nat) : Option Nat :=
  if bytes ≠ [] ∧ ∀ b ∈ bytes, 48 ≤ b ∧ b ≤ 57 then
    some (bytes.foldl (fun acc b => acc * 10 + (b - 48)) 0)
  else none

/-- Projection of a JavaScript object stored in the cache under an attribute
key, keeping exactly what `Client.requestToken` (lines 170-189) reads from
it: its `token` and `validUntil` properties (`none` models an absent
property, i.e. `undefined`) and the number of its other enumerable
properties, so that `Object.keys(cached).length` is expressible. -/
structure CacheEntry where
  token : Option String
  validUntil : Option Nat
  extraFields : Nat
  deriving DecidableEq, Repr

/-- `Object.keys(cached).length` (line 174) for a `CacheEntry`. -/
def keysLength (c : CacheEntry) : Nat :=
  (if c.token.isSome then 1 else 0) +
    (if c.validUntil.isSome then 1 else 0) + c.extraFields

/-- Truthiness of `cached.validUntil` on line 175: `undefined` (absent) and
`0` are falsy; any other number is truthy. -/
def validUntilTruthy : Option Nat → Bool
  | none => false
  | some v => v != 0

/-- The refresh condition of `Client.requestToken` (lines 172-176):
`!cached || Object.keys(cached).length === 0 ||
(cached.validUntil && Date.now() >= cached.validUntil)`;
`cached` is the possibly-absent entry and `now` is `Date.now()`. -/
def isCacheMiss (cached : Option CacheEntry) (now : Nat) : Bool :=
  match cached with
  | none => true
  | some c =>
    keysLength c == 0 ||
      (validUntilTruthy c.validUntil && decide (c.validUntil.getD 0 ≤ now))

/-- A JavaScript attribute object as received by `Client.requestToken` and
passed to `JSON.stringify` at line 168: its enumerable string-valued
properties in insertion order. -/
abbrev AttributeObj := List (String × String)

/-- One `"key":"value"` member of a serialized JSON object, for a key and a
value containing no character that `JSON.stringify` would escape. -/
def jsonFieldChars (k : List Char) (v : String) : List Char :=
  '"' :: (k ++ '"' :: ':' :: '"' :: (v.data ++ ['"']))

/-- The comma-separated members of a serialized JSON object, in insertion
order. -/
def jsonFieldsChars : AttributeObj → List Char
  | [] => []
  | [kv] => jsonFieldChars kv.1.data kv.2
  | kv :: rest => jsonFieldChars kv.1.data kv.2 ++ ',' :: jsonFieldsChars rest

/-- `JSON.stringify` on an object whose enumerable properties are
string-valued and free of characters needing a JSON escape: the properties
are emitted in insertion order as `"key":"value"`, comma-separated, inside
braces.  This is the cache key computed at line 168. -/
def jsonStringifyObj (fields : AttributeObj) : String :=
  ⟨'\x7b' :: (jsonFieldsChars fields ++ ['\x7d'])⟩

/-- The attribute shape documented in the source (`@typedef Attribute`,
lines 3-7): a required `type` property followed by an optional `value`
property, in that insertion order. -/
def mkAttribute (type : String) (value : Option String) : AttributeObj :=
  ("type", type) :: (match value with | some v => [("value", v)] | none => [])

/-- Outcome of one `Client.requestToken` call (lines 164-192): the settled
promise (`Except.error` models a rejection), the `localStorage.set` calls
performed, in order, and whether the external identity-verification
collaborator (`this._requestToken`, the irma-frontend popup) was invoked. -/
structure TokenOutcome where
  result : Except String (Option String)
  writes : List (String × CacheEntry)
  invoked : Bool
  deriving Repr

/-- The `validUntil` computed at lines 182-183:
`const t = new Date(Date.now()); t.setSeconds(t.getSeconds() + max_age)`
keeps the sub-second part and adds exactly `max_age` seconds, so in
milliseconds it is `now + maxAge * 1000`. -/
def computeValidUntil (now maxAge : Nat) : Nat := now + maxAge * 1000

/-- `Client.requestToken` (lines 164-192).  `store` models the pluggable
`localStorage` collaborator by the mapping `key ↦ store.get(key)[key]`
(`none` for the second argument of `Client.build` being absent, i.e. no
caching mode); `now` is `Date.now()` in milliseconds; `maxAge` is
`this.params.max_age` in seconds; `fresh` is the outcome the collaborator
`this._requestToken(attribute)` settles with if invoked.  On the hit path
the entry is necessarily present, so `Option.bind` recovers its `token`
property. -/
def requestToken (store : Option (String → Option CacheEntry))
    (attr : AttributeObj) (now maxAge : Nat)
    (fresh : Except String String) : TokenOutcome :=
  match store with
  | none =>
    { result := fresh.map some, writes := [], invoked := true }
  | some get =>
    let serializedAttr := jsonStringifyObj attr
    let cached := get serializedAttr
    if isCacheMiss cached now then
      match fresh with
      | .error e => { result := .error e, writes := [], invoked := true }
      | .ok token =>
        { result := .ok (some token)
          writes := [(serializedAttr,
            { token := some token
              validUntil := some (computeValidUntil now maxAge)
              extraFields := 0 })]
          invoked := true }
    else
      { result := .ok (cached.bind CacheEntry.token)
        writes := []
        invoked := false }

/-- Modelled from the spec (claim C2's validity wording): the cached entry
"is considered valid exactly when it exists, has at least one field, and
either has no validUntil field or the current time is strictly before
validUntil".  Stated from the spec's words for comparison with the code's
`isCacheMiss`. -/
def specCacheValid (cached : Option CacheEntry) (now : Nat) : Bool :=
  match cached with
  | none => false
  | some c =>
    keysLength c != 0 &&
      (c.validUntil.isNone || decide (now < c.validUntil.getD 0))

/-! ## Codec lemmas -/

lemma paddedLength_eq (l : Nat) : paddedLength l = ((l + 1) / 512 + 1) * 512 := rfl

lemma le_paddedLength (l : Nat) : l + 2 ≤ paddedLength l := by
  rw [paddedLength_eq]
  omega

/-- On an in-range input, `encodePayload` produces the explicit
prefix-payload-padding buffer. -/
lemma encodePayload_ok (s : List Nat) (h : s.length < 65534) :
    encodePayload s = .ok (s.length / 256 % 256 :: s.length % 256 ::
      (s ++ List.replicate (paddedLength s.length - (s.length + 2)) 0)) := by
  simp only [encodePayload]
  rw [if_neg (by omega)]

/-- The buffer built by `encodePayload` has exactly the padded length. -/
lemma encodePayload_ok_length (s : List Nat) :
    (s.length / 256 % 256 :: s.length % 256 ::
      (s ++ List.replicate (paddedLength s.length - (s.length + 2)) 0)).length
      = paddedLength s.length := by
  have := le_paddedLength s.length
  simp [List.length_append]
  omega

lemma readLen_cons (b0 b1 : Nat) (rest : List Nat) :
    readLen (b0 :: b1 :: rest) = b0 % 256 * 256 + b1 % 256 := rfl

/-- Slicing the buffer built by `encodePayload` recovers exactly the
payload bytes. -/
lemma slicePayload_encodePayload (s : List Nat) (h : s.length < 65534) :
    slicePayload (s.length / 256 % 256 :: s.length % 256 ::
      (s ++ List.replicate (paddedLength s.length - (s.length + 2)) 0)) = s := by
  unfold slicePayload
  rw [readLen_cons]
  have h2 : s.length / 256 % 256 % 256 * 256 + s.length % 256 % 256 = s.length := by
    omega
  rw [h2]
  show (s ++ List.replicate (paddedLength s.length - (s.length + 2)) 0).take s.length = s
  exact List.take_left s _

/-! ## C1: payload codec round-trip -/

/-- **C1.** For every structured value `x` whose canonical JSON
serialization `serialize x` has byte length strictly below 65534
(`parse` being the UTF-8 decode and JSON parse that inverts the canonical
serialization at `x`), decoding the buffer produced by encoding `x` yields
`x` again: `decodePayload` is a left inverse of `encodePayload` on all
encodable inputs. -/
theorem decode_encode_roundtrip {α : Type} (serialize : α → List Nat)
    (parse : List Nat → Option α) (x : α)
    (hcanon : parse (serialize x) = some x)
    (hlen : (serialize x).length < 65534) :
    ∃ buf, encodePayload (serialize x) = .ok buf ∧
      decodePayload parse buf = some x := by
  refine ⟨_, encodePayload_ok (serialize x) hlen, ?_⟩
  unfold decodePayload
  rw [slicePayload_encodePayload (serialize x) hlen, hcanon]

/-- Witness for C1 at the two-byte serialized form `[49, 50]` (the JSON
text `"12"`), with the identity serializer pair. -/
theorem decode_encode_roundtrip_witness :
    ∃ buf, encodePayload [49, 50] = .ok buf ∧
      decodePayload some buf = some [49, 50] :=
  decode_encode_roundtrip id some [49, 50] rfl (by decide)

/-! ## C4: padded-length formula -/

/-- **C4.** For every encodable serialized length (below 65534), the buffer
length computed by `encodePayload` is `paddedLength`, the smallest multiple
of 512 strictly greater than `len + 1`; in particular it is a positive
multiple of 512. -/
theorem encode_paddedLength (s : List Nat) (h : s.length < 65534) :
    ∃ buf, encodePayload s = .ok buf ∧
      buf.length = paddedLength s.length ∧
      buf.length % 512 = 0 ∧ 0 < buf.length ∧
      s.length + 1 < buf.length ∧
      ∀ m, m % 512 = 0 → s.length + 1 < m → buf.length ≤ m := by
  refine ⟨_, encodePayload_ok s h, encodePayload_ok_length s, ?_, ?_, ?_, ?_⟩ <;>
    rw [encodePayload_ok_length s, paddedLength_eq] <;> omega

/-- Witness for C4 at the one-byte serialized form `[49]`. -/
theorem encode_paddedLength_witness :
    ∃ buf, encodePayload [49] = .ok buf ∧
      buf.length = paddedLength ([49] : List Nat).length ∧
      buf.length % 512 = 0 ∧ 0 < buf.length ∧
      ([49] : List Nat).length + 1 < buf.length ∧
      ∀ m, m % 512 = 0 → ([49] : List Nat).length + 1 < m → buf.length ≤ m :=
  encode_paddedLength [49] (by decide)

/-! ## C5: size boundary -/

/-- **C5.** `encodePayload` fails with `PayloadTooLarge` exactly when the
serialized byte length is at least 65534; below that bound no size error is
raised and the length fits the two-byte big-endian length field at bytes
`[0, 1]`. -/
theorem encode_size_boundary (s : List Nat) :
    (encodePayload s = .error .PayloadTooLarge ↔ 65534 ≤ s.length) ∧
    (s.length < 65534 →
      ∃ buf, encodePayload s = .ok buf ∧
        buf.getD 0 0 < 256 ∧ buf.getD 1 0 < 256 ∧
        buf.getD 0 0 * 256 + buf.getD 1 0 = s.length) := by
  constructor
  · constructor
    · intro h
      by_contra hlt
      rw [encodePayload_ok s (by omega)] at h
      exact absurd h (by simp)
    · intro h
      simp only [encodePayload]
      rw [if_pos (by omega)]
  · intro h
    refine ⟨_, encodePayload_ok s h, ?_, ?_, ?_⟩
    · show s.length / 256 % 256 < 256
      omega
    · show s.length % 256 < 256
      omega
    · show s.length / 256 % 256 * 256 + s.length % 256 = s.length
      omega

/-- Witness for C5: a 65534-byte serialized form is rejected as
`PayloadTooLarge`, while the two-byte form `[52, 50]` encodes with a
correct big-endian length field. -/
theorem encode_size_boundary_witness :
    encodePayload (List.replicate 65534 0) = .error .PayloadTooLarge ∧
    ∃ buf, encodePayload [52, 50] = .ok buf ∧
      buf.getD 0 0 < 256 ∧ buf.getD 1 0 < 256 ∧
      buf.getD 0 0 * 256 + buf.getD 1 0 = ([52, 50] : List Nat).length :=
  ⟨(encode_size_boundary _).1.mpr (by rw [List.length_replicate]),
   (encode_size_boundary _).2 (by decide)⟩

/-! ## C7: padding slack -/

/-- C7 counterexample: a 510-byte serialized value is padded to a 512-byte
buffer, which holds exactly the two-byte prefix plus the payload — the
buffer length is a multiple of 512 but is **not** at least `len + 2 + 1`,
so there is no byte of slack after the payload. -/
theorem encode_padding_slack_cex :
    ∃ buf, encodePayload (List.replicate 510 97) = .ok buf ∧
      buf.length % 512 = 0 ∧ buf.length < 510 + 2 + 1 := by
  refine ⟨_, encodePayload_ok (List.replicate 510 97) (by rw [List.length_replicate]; omega), ?_, ?_⟩ <;>
    rw [encodePayload_ok_length, List.length_replicate, paddedLength_eq] <;> omega

/-- **C7 (amended).** For every encodable value the buffer length is a
multiple of 512 and at least `len + 2`; it is at least `len + 2 + 1`
(one byte of slack after the payload) except when
`len ≡ 510 (mod 512)`, where the prefix and payload fill the last block
exactly. -/
theorem encode_padding_granularity (s : List Nat) (h : s.length < 65534) :
    ∃ buf, encodePayload s = .ok buf ∧
      buf.length % 512 = 0 ∧ s.length + 2 ≤ buf.length ∧
      (s.length % 512 ≠ 510 → s.length + 2 + 1 ≤ buf.length) := by
  refine ⟨_, encodePayload_ok s h, ?_, ?_, ?_⟩ <;>
    rw [encodePayload_ok_length s, paddedLength_eq] <;> omega

/-- Witness for amended C7 at the one-byte serialized form `[49]`. -/
theorem encode_padding_granularity_witness :
    ∃ buf, encodePayload [49] = .ok buf ∧
      buf.length % 512 = 0 ∧ ([49] : List Nat).length + 2 ≤ buf.length ∧
      (([49] : List Nat).length % 512 ≠ 510 →
        ([49] : List Nat).length + 2 + 1 ≤ buf.length) :=
  encode_padding_granularity [49] (by decide)

/-! ## C8: malformed-payload detection -/

/-- C8 counterexample: the buffer `[0, 5, 49]` declares payload length 5
with only one payload byte present (`len + 2 > buffer.length`), yet
`decodePayload` does not fail: the slice clamps to `[49]`, the JSON text
`"1"`, which parses to `1`. -/
theorem decode_malformed_cex :
    ([0, 5, 49] : List Nat).length < readLen [0, 5, 49] + 2 ∧
    decodePayload parseDigits [0, 5, 49] = some 1 := by decide

/-- **C8 (amended).** `Client.decrypt` performs no length-consistency
check: when the declared `len + 2` exceeds the buffer length, the slice
silently clamps, so decoding parses all the bytes after the two-byte
prefix; it fails exactly when that parse fails, never because of the
length mismatch itself. -/
theorem decode_clamps {α : Type} (parse : List Nat → Option α)
    (buf : List Nat) (h : buf.length < readLen buf + 2) :
    decodePayload parse buf = parse (buf.drop 2) ∧
    (parse (buf.drop 2) = none → decodePayload parse buf = none) := by
  have hs : slicePayload buf = buf.drop 2 := by
    unfold slicePayload
    apply List.take_of_length_le
    rw [List.length_drop]
    omega
  refine ⟨?_, ?_⟩
  · unfold decodePayload
    rw [hs]
  · intro hn
    unfold decodePayload
    rw [hs, hn]

/-- Witness for amended C8 at the truncated buffer `[0, 5, 49]`. -/
theorem decode_clamps_witness :
    decodePayload parseDigits [0, 5, 49] = parseDigits ([0, 5, 49].drop 2) ∧
    (parseDigits ([0, 5, 49].drop 2) = none →
      decodePayload parseDigits [0, 5, 49] = none) :=
  decode_clamps parseDigits [0, 5, 49] (by decide)

/-! ## C10: decode ignores padding content -/

/-- `readLen` only looks at the first two bytes, so it is unchanged by
taking a prefix of length at least 2. -/
lemma readLen_take (l : List Nat) (n : Nat) (h : 2 ≤ n) :
    readLen (l.take n) = readLen l := by
  obtain ⟨m, rfl⟩ : ∃ m, n = m + 2 := ⟨n - 2, by omega⟩
  cases l with
  | nil => rfl
  | cons a l =>
    cases l with
    | nil => cases m <;> rfl
    | cons b l => rfl

/-- **C10.** For two buffers of the same length that agree on bytes
`[0, 2 + len)` — `len` being the big-endian u16 at bytes `[0, 1]` and
`len + 2` within bounds — decoding returns the same result: the bytes
after offset `2 + len` (the padding) never influence the decoded value. -/
theorem decode_ignores_padding {α : Type} (parse : List Nat → Option α)
    (b1 b2 : List Nat) (hlen : b1.length = b2.length)
    (hbound : readLen b1 + 2 ≤ b1.length)
    (hpre : b1.take (2 + readLen b1) = b2.take (2 + readLen b1)) :
    decodePayload parse b1 = decodePayload parse b2 := by
  have hr : readLen b1 = readLen b2 := by
    rw [← readLen_take b1 (2 + readLen b1) (by omega),
      ← readLen_take b2 (2 + readLen b1) (by omega), hpre]
  have e1 : (b1.take (2 + readLen b1)).drop 2 = (b1.drop 2).take (readLen b1) := by
    have h := List.drop_take (2 + readLen b1) 2 b1
    simpa using h
  have e2 : (b2.take (2 + readLen b1)).drop 2 = (b2.drop 2).take (readLen b1) := by
    have h := List.drop_take (2 + readLen b1) 2 b2
    simpa using h
  unfold decodePayload slicePayload
  rw [← hr, ← e1, ← e2, hpre]

/-- Witness for C10: two buffers differing only in their padding bytes
decode identically. -/
theorem decode_ignores_padding_witness :
    decodePayload parseDigits [0, 1, 49, 7, 7] =
      decodePayload parseDigits [0, 1, 49, 8, 9] :=
  decode_ignores_padding parseDigits [0, 1, 49, 7, 7] [0, 1, 49, 8, 9]
    (by decide) (by decide) (by decide)

/-! ## Token-cache lemmas -/

/-- On a cache miss, `requestToken` dispatches on the collaborator's
outcome: an error propagates with no write; a fresh token is written back
and returned. -/
lemma requestToken_eq_of_miss (get : String → Option CacheEntry)
    (attr : AttributeObj) (now maxAge : Nat) (fresh : Except String String)
    (h : isCacheMiss (get (jsonStringifyObj attr)) now = true) :
    requestToken (some get) attr now maxAge fresh =
      match fresh with
      | .error e => { result := .error e, writes := [], invoked := true }
      | .ok token =>
        { result := .ok (some token)
          writes := [(jsonStringifyObj attr,
            { token := some token
              validUntil := some (computeValidUntil now maxAge)
              extraFields := 0 })]
          invoked := true } := by
  simp only [requestToken]
  rw [if_pos h]

/-- On a cache hit, `requestToken` returns the cached token without
invoking the collaborator and without writing. -/
lemma requestToken_eq_of_hit (get : String → Option CacheEntry)
    (attr : AttributeObj) (now maxAge : Nat) (fresh : Except String String)
    (c : CacheEntry) (hc : get (jsonStringifyObj attr) = some c)
    (h : isCacheMiss (some c) now = false) :
    requestToken (some get) attr now maxAge fresh =
      { result := .ok c.token, writes := [], invoked := false } := by
  simp only [requestToken, hc]
  rw [if_neg (by simp [h])]
  simp

/-- The code's refresh test, negated: a hit happens exactly when the entry
is present, has at least one field, and its `validUntil` is either falsy
(absent or 0) or still in the future. -/
lemma isCacheMiss_false_iff (cached : Option CacheEntry) (now : Nat) :
    isCacheMiss cached now = false ↔
      ∃ c, cached = some c ∧ keysLength c ≠ 0 ∧
        (validUntilTruthy c.validUntil = false ∨ now < c.validUntil.getD 0) := by
  cases cached with
  | none => simp [isCacheMiss]
  | some c =>
    simp only [isCacheMiss, Bool.or_eq_false_iff, Bool.and_eq_false_iff,
      beq_eq_false_iff_ne, ne_eq, decide_eq_false_iff_not, Nat.not_le,
      Option.some.injEq]
    constructor
    · rintro ⟨h1, h2⟩
      exact ⟨c, rfl, h1, h2⟩
    · rintro ⟨c', hc', h1, h2⟩
      cases hc'
      exact ⟨h1, h2⟩

/-! ## C2: cache-hit behaviour -/

/-- C2 counterexample: an entry `{ token: "T", validUntil: 0 }` is invalid
under the claim's wording (the `validUntil` field is present and the
current time 1 is not strictly before 0), yet JavaScript truthiness makes
`0` behave like an absent `validUntil`: the code treats the entry as a hit,
returns the cached token and does not invoke the collaborator. -/
theorem requestToken_validity_cex :
    specCacheValid (some ⟨some "T", some 0, 0⟩) 1 = false ∧
    requestToken
        (some fun k =>
          if k = jsonStringifyObj [("type", "t")] then some ⟨some "T", some 0, 0⟩
          else none)
        [("type", "t")] 1 7 (Except.ok "F") =
      ⟨Except.ok (some "T"), [], false⟩ :=
  ⟨rfl, rfl⟩

/-- **C2 (amended).** With a store configured, `requestToken` skips the
collaborator exactly when the cached entry exists, has at least one field,
and its `validUntil` is falsy (absent **or equal to 0**) or the current
time is strictly before it; whenever the entry is valid in this sense,
the cached token is returned and nothing is written. -/
theorem requestToken_cache_hit (get : String → Option CacheEntry)
    (attr : AttributeObj) (now maxAge : Nat) (fresh : Except String String) :
    ((requestToken (some get) attr now maxAge fresh).invoked = false ↔
      ∃ c, get (jsonStringifyObj attr) = some c ∧ keysLength c ≠ 0 ∧
        (validUntilTruthy c.validUntil = false ∨ now < c.validUntil.getD 0)) ∧
    (∀ c, get (jsonStringifyObj attr) = some c → keysLength c ≠ 0 →
      validUntilTruthy c.validUntil = false ∨ now < c.validUntil.getD 0 →
      requestToken (some get) attr now maxAge fresh =
        { result := .ok c.token, writes := [], invoked := false }) := by
  constructor
  · rw [← isCacheMiss_false_iff]
    constructor
    · intro h
      cases hm : isCacheMiss (get (jsonStringifyObj attr)) now with
      | false => rfl
      | true =>
        rw [requestToken_eq_of_miss get attr now maxAge fresh hm] at h
        cases fresh <;> simp at h
    · intro h
      obtain ⟨c, hc, h1, h2⟩ := (isCacheMiss_false_iff _ now).mp h
      rw [requestToken_eq_of_hit get attr now maxAge fresh c hc (hc ▸ h)]
  · intro c hc h1 h2
    apply requestToken_eq_of_hit get attr now maxAge fresh c hc
    rw [isCacheMiss_false_iff]
    exact ⟨c, rfl, h1, h2⟩

/-- Witness for amended C2: a store holding a still-valid entry yields the
cached token with no collaborator call and no write. -/
theorem requestToken_cache_hit_witness :
    requestToken
        (some fun k =>
          if k = jsonStringifyObj [("type", "a"), ("value", "b")] then
            some ⟨some "T", some 100, 0⟩
          else none)
        [("type", "a"), ("value", "b")] 5 7 (Except.ok "F") =
      { result := .ok (some "T"), writes := [], invoked := false } :=
  (requestToken_cache_hit
      (fun k =>
        if k = jsonStringifyObj [("type", "a"), ("value", "b")] then
          some ⟨some "T", some 100, 0⟩
        else none)
      [("type", "a"), ("value", "b")] 5 7 (Except.ok "F")).2
    ⟨some "T", some 100, 0⟩ (by rw [if_pos rfl]) (by decide) (by decide)

/-! ## C3: cache-miss behaviour -/

/-- **C3.** With a store configured, on a missing or invalid entry
`requestToken` invokes the collaborator, computes `validUntil` as the
current time plus the server-supplied `max_age` seconds (milliseconds:
`now + maxAge * 1000`), writes `{ serializedAttribute: { token, validUntil } }`
to the store and returns the fresh token. -/
theorem requestToken_cache_miss (get : String → Option CacheEntry)
    (attr : AttributeObj) (now maxAge : Nat) (token : String)
    (hmiss : isCacheMiss (get (jsonStringifyObj attr)) now = true) :
    requestToken (some get) attr now maxAge (Except.ok token) =
      { result := .ok (some token)
        writes := [(jsonStringifyObj attr,
          { token := some token
            validUntil := some (now + maxAge * 1000)
            extraFields := 0 })]
        invoked := true } := by
  rw [requestToken_eq_of_miss get attr now maxAge (Except.ok token) hmiss]
  rfl

/-- Witness for C3 against an empty store. -/
theorem requestToken_cache_miss_witness :
    requestToken (some fun _ => none) [("type", "t")] 3 2 (Except.ok "TOK") =
      { result := .ok (some "TOK")
        writes := [(jsonStringifyObj [("type", "t")],
          { token := some "TOK"
            validUntil := some (3 + 2 * 1000)
            extraFields := 0 })]
        invoked := true } :=
  requestToken_cache_miss (fun _ => none) [("type", "t")] 3 2 "TOK" rfl

/-! ## C9: error atomicity -/

/-- **C9.** If the collaborator fails during a cache miss, `requestToken`
propagates the failure and performs no write to the store. -/
theorem requestToken_error_no_write (get : String → Option CacheEntry)
    (attr : AttributeObj) (now maxAge : Nat) (e : String)
    (hmiss : isCacheMiss (get (jsonStringifyObj attr)) now = true) :
    requestToken (some get) attr now maxAge (Except.error e) =
      { result := .error e, writes := [], invoked := true } := by
  rw [requestToken_eq_of_miss get attr now maxAge (Except.error e) hmiss]

/-- Witness for C9 against a store whose entry has expired: the
collaborator failure propagates and nothing is written. -/
theorem requestToken_error_no_write_witness :
    requestToken (some fun _ => some ⟨some "OLD", some 5, 0⟩)
        [("type", "t")] 10 2 (Except.error "abandoned") =
      { result := .error "abandoned", writes := [], invoked := true } :=
  requestToken_error_no_write (fun _ => some ⟨some "OLD", some 5, 0⟩)
    [("type", "t")] 10 2 "abandoned" (by decide)

/-! ## C6: cache-key determinism -/

/-- C6 counterexample: two attribute objects carrying identical `type` and
`value` properties but in different insertion order serialize to different
cache keys — `JSON.stringify` emits properties in insertion order. -/
theorem cache_key_order_cex :
    (([("type", "t"), ("value", "v")] : AttributeObj).lookup "type" =
      ([("value", "v"), ("type", "t")] : AttributeObj).lookup "type") ∧
    (([("type", "t"), ("value", "v")] : AttributeObj).lookup "value" =
      ([("value", "v"), ("type", "t")] : AttributeObj).lookup "value") ∧
    jsonStringifyObj [("type", "t"), ("value", "v")] ≠
      jsonStringifyObj [("value", "v"), ("type", "t")] := by decide

/-- Splitting a character list at an unescaped quote is unambiguous: if two
quote-free prefixes are followed by a quote, equal concatenations force
equal parts. -/
lemma append_quote_cancel (xs : List Char) :
    ∀ ys r1 r2 : List Char, '"' ∉ xs → '"' ∉ ys →
      xs ++ '"' :: r1 = ys ++ '"' :: r2 → xs = ys ∧ r1 = r2 := by
  induction xs with
  | nil =>
    intro ys r1 r2 _ hy h
    cases ys with
    | nil => simpa using h
    | cons y ys =>
      simp only [List.nil_append, List.cons_append, List.cons.injEq] at h
      obtain ⟨h1, _⟩ := h
      subst h1
      exact absurd (List.mem_cons_self _ _) hy
  | cons x xs ih =>
    intro ys r1 r2 hx hy h
    cases ys with
    | nil =>
      simp only [List.nil_append, List.cons_append, List.cons.injEq] at h
      obtain ⟨h1, _⟩ := h
      subst h1
      exact absurd (List.mem_cons_self _ _) hx
    | cons y ys =>
      simp only [List.cons_append, List.cons.injEq] at h
      obtain ⟨h1, h2⟩ := h
      subst h1
      have hx' : '"' ∉ xs := fun hm => hx (List.mem_cons_of_mem _ hm)
      have hy' : '"' ∉ ys := fun hm => hy (List.mem_cons_of_mem _ hm)
      obtain ⟨e1, e2⟩ := ih ys r1 r2 hx' hy' h2
      exact ⟨by rw [e1], e2⟩

/-- The serialized form of an attribute with a `value` property, as a
character list. -/
lemma stringify_mkAttribute_some_data (t v : String) :
    (jsonStringifyObj (mkAttribute t (some v))).data =
      '\x7b' :: '"' :: 't' :: 'y' :: 'p' :: 'e' :: '"' :: ':' :: '"' ::
        (t.data ++ '"' :: ',' :: '"' :: 'v' :: 'a' :: 'l' :: 'u' :: 'e' ::
          '"' :: ':' :: '"' :: (v.data ++ ['"', '\x7d'])) := by
  simp [jsonStringifyObj, mkAttribute, jsonFieldsChars, jsonFieldChars,
    show "type".data = ['t', 'y', 'p', 'e'] from rfl,
    show "value".data = ['v', 'a', 'l', 'u', 'e'] from rfl]

/-- The serialized form of an attribute without a `value` property, as a
character list. -/
lemma stringify_mkAttribute_none_data (t : String) :
    (jsonStringifyObj (mkAttribute t none)).data =
      '\x7b' :: '"' :: 't' :: 'y' :: 'p' :: 'e' :: '"' :: ':' :: '"' ::
        (t.data ++ ['"', '\x7d']) := by
  simp [jsonStringifyObj, mkAttribute, jsonFieldsChars, jsonFieldChars,
    show "type".data = ['t', 'y', 'p', 'e'] from rfl]

/-- **C6 (amended).** For attribute objects built in the source's
documented insertion order (`type` first, then the optional `value`), with
property values free of the quote character (which `JSON.stringify` would
escape), the cache key is identical **iff** the `type` and `value`
properties are identical — the serialization is deterministic for a fixed
insertion order and is injective, so two such attributes are equal exactly
when their serialized forms are byte-identical.  (With *different*
insertion orders identical properties can yield different keys; see the
counterexample.) -/
theorem cache_key_determinism (t1 t2 : String) (v1 v2 : Option String)
    (ht1 : '"' ∉ t1.data) (ht2 : '"' ∉ t2.data)
    (hv1 : ∀ s, v1 = some s → '"' ∉ s.data)
    (hv2 : ∀ s, v2 = some s → '"' ∉ s.data) :
    jsonStringifyObj (mkAttribute t1 v1) = jsonStringifyObj (mkAttribute t2 v2) ↔
      t1 = t2 ∧ v1 = v2 := by
  rw [String.ext_iff]
  cases v1 with
  | none =>
    cases v2 with
    | none =>
      rw [stringify_mkAttribute_none_data, stringify_mkAttribute_none_data]
      constructor
      · intro h
        simp only [List.cons.injEq, true_and] at h
        obtain ⟨e1, _⟩ := append_quote_cancel t1.data t2.data ['\x7d'] ['\x7d'] ht1 ht2 h
        exact ⟨String.ext_iff.mpr e1, rfl⟩
      · rintro ⟨rfl, -⟩
        rfl
    | some s2 =>
      rw [stringify_mkAttribute_none_data, stringify_mkAttribute_some_data]
      constructor
      · intro h
        exfalso
        simp only [List.cons.injEq, true_and] at h
        obtain ⟨-, e2⟩ := append_quote_cancel t1.data t2.data _ _ ht1 ht2 h
        simp at e2
      · rintro ⟨-, h2⟩
        exact Option.noConfusion h2
  | some s1 =>
    cases v2 with
    | none =>
      rw [stringify_mkAttribute_some_data, stringify_mkAttribute_none_data]
      constructor
      · intro h
        exfalso
        simp only [List.cons.injEq, true_and] at h
        obtain ⟨-, e2⟩ := append_quote_cancel t1.data t2.data _ _ ht1 ht2 h
        simp at e2
      · rintro ⟨-, h2⟩
        exact Option.noConfusion h2
    | some s2 =>
      rw [stringify_mkAttribute_some_data, stringify_mkAttribute_some_data]
      constructor
      · intro h
        simp only [List.cons.injEq, true_and] at h
        obtain ⟨e1, e2⟩ := append_quote_cancel t1.data t2.data _ _ ht1 ht2 h
        simp only [List.cons.injEq, true_and] at e2
        obtain ⟨e3, -⟩ := append_quote_cancel s1.data s2.data ['\x7d'] ['\x7d']
          (hv1 s1 rfl) (hv2 s2 rfl) e2
        exact ⟨String.ext_iff.mpr e1, by rw [String.ext_iff.mpr e3]⟩
      · rintro ⟨rfl, h2⟩
        obtain rfl : s1 = s2 := Option.some.inj h2
        rfl

/-- Witness for amended C6: identical type and value in the documented
insertion order give identical keys. -/
theorem cache_key_determinism_witness :
    jsonStringifyObj (mkAttribute "a" (some "b")) =
        jsonStringifyObj (mkAttribute "a" (some "b")) ↔
      "a" = "a" ∧ (some "b" : Option String) = some "b" :=
  cache_key_determinism "a" "a" (some "b") (some "b") (by decide) (by decide)
    (fun s hs => by cases hs; decide) (fun s hs => by cases hs; decide)

end Client
